import Mathlib

/-!
Verification of the KAREN backlog-grooming assistant's Review & Estimate
Engine against its natural-language specification.

The development shallowly embeds the TypeScript sources:

* `src/Review.ts` — the Review Engine (`review`, `diff`, `publish`,
  `runChecklist`, `calculateScore`, `roundScale`, `normalizeEstimate`);
* `src/Issue.ts` — the content codec (`serializeIssue`, `deserializeEdit`,
  `diffIssue`) and the publication gate (`upsertComment`);
* `src/Store.ts` — the key-value store (`put`/`get` with the JS truthiness
  guard);
* `src/Settings.ts` — the settings schema (`SettingsSchemaV1`,
  `validateSettings`);
* the `AuthoringService.checksum` helper.

JavaScript numbers are modelled as exact rationals (`ℚ`); float rounding is
not modelled.  The external collaborators (Ollama inference, the YAML
pretty-printer, the jsdiff patch builder, the jira2md markup converter) are
modelled only as far as the code under verification observes them: inference
is a function of the model identifier and the issue (prompts are built
deterministically from those), the YAML codec is modelled on the subset of
documents the code emits, jsdiff's `createPatch` is modelled by its
always-present header plus hunks that are empty exactly for equal inputs,
and the markup converters are abstract function parameters.
-/

namespace Karen

/-- Rounding as performed by JS `Math.round`: half-way cases go up. -/
def jsRound (q : ℚ) : ℤ := ⌊q + 1/2⌋

/-! ### Data model (src/Issue.ts, src/Review.ts) -/

/-- `Author` from src/Issue.ts. -/
structure Author where
  self : String
  accountId : String
  emailAddress : String
  displayName : String
  active : Bool
  accountType : String
deriving Repr, DecidableEq

/-- `Comment` from src/Issue.ts. -/
structure Comment where
  id : String
  self : String
  author : Author
  created : String
  updated : String
  body : String
deriving Repr, DecidableEq

/-- The `fields` member of `Issue`; `description` is `string | null`. -/
structure IssueFields where
  summary : String
  description : Option String
  updated : String
  created : String
  creator : Author
  comments : List Comment
deriving Repr, DecidableEq

/-- `Issue` from src/Issue.ts. -/
structure Issue where
  id : String
  self : String
  key : String
  fields : IssueFields
deriving Repr, DecidableEq

/-- `IssueMeta` from src/Issue.ts (header of the serialized issue document). -/
structure IssueMeta where
  id : String
  key : String
  self : String
  created : String
  updated : String
  summary : String
  creator : Author
deriving Repr, DecidableEq

/-- The `meta` object returned by `deserializeEdit` (`{id, key, summary}`). -/
structure EditMeta where
  id : String
  key : String
  summary : String
deriving Repr, DecidableEq

/-- `Edit` as produced by `deserializeEdit`. -/
structure Edit where
  meta : EditMeta
  description : String
deriving Repr, DecidableEq

/-- `ChecklistEntry` from src/Review.ts. -/
structure ChecklistEntry where
  key : String
  description : String
  weight : ℚ
deriving Repr, DecidableEq

/-- `ChecklistResult` from src/Review.ts.  The `value` field is filled from
the parsed model response by plain property access `data[entry.key]`, which
in JS yields `undefined` when the key is absent; we model the property
lookup result as `Option Bool`, `none` standing for `undefined`. -/
structure ChecklistResult where
  entry : ChecklistEntry
  value : Option Bool
deriving Repr, DecidableEq

/-- `Estimate` from src/Review.ts. -/
structure Estimate where
  confidence : ℚ
  storyPoints : ℚ
deriving Repr, DecidableEq

/-- `Review` from src/Review.ts.  Note the record has exactly these seven
fields; see `reviewRecordFields` below. -/
structure Review where
  key : String
  model : String
  score : ℚ
  checklist : List ChecklistResult
  estimate : Estimate
  normalizedEstimate : Estimate
  issue : Issue
deriving Repr, DecidableEq

/-- `ReviewDiff` from src/Review.ts. -/
structure ReviewDiff where
  key : String
  hasReview : Bool
  isOutdated : Bool
  patch : String
deriving Repr, DecidableEq

/-- The property names of the object literal persisted by `review()`
(src/Review.ts lines 140–148):
`{ key, model, score, checklist, estimate, normalizedEstimate, issue }`. -/
def reviewRecordFields : List String :=
  ["key", "model", "score", "checklist", "estimate", "normalizedEstimate", "issue"]

/-! ### Settings (src/Settings.ts) -/

/-- Scale entry of `EstimateSettings.storyPoints.scale`. -/
structure ScaleEntry where
  points : ℚ
  examples : List String
deriving Repr, DecidableEq

/-- `confidence` block of `EstimateSettings`. -/
structure ConfidenceSettings where
  comment : String
  description : String
deriving Repr, DecidableEq

/-- `storyPoints` block of `EstimateSettings`. -/
structure StoryPointsSettings where
  comment : String
  description : String
  scale : List ScaleEntry
deriving Repr, DecidableEq

/-- `EstimateSettings` from src/Settings.ts. -/
structure EstimateSettings where
  model : String
  confidence : ConfidenceSettings
  storyPoints : StoryPointsSettings
deriving Repr, DecidableEq

/-- `ReviewSettings` from src/Settings.ts. -/
structure ReviewSettings where
  model : String
  comment : String
  checklist : List ChecklistEntry
deriving Repr, DecidableEq

/-- `NitpickSettings` from src/Settings.ts. -/
structure NitpickSettings where
  model : String
  task : String
  instructions : List String
  template : String
deriving Repr, DecidableEq

/-- `assistant` block of `SettingsV1`. -/
structure AssistantSettings where
  review : ReviewSettings
  estimate : EstimateSettings
  nitpick : NitpickSettings
deriving Repr, DecidableEq

/-- The TS union type `"yaml" | "json"` of `printer.format`. -/
inductive PrinterFormat where
  | yaml
  | json
deriving Repr, DecidableEq

/-- The string a `PrinterFormat` denotes. -/
def PrinterFormat.toStr : PrinterFormat → String
  | .yaml => "yaml"
  | .json => "json"

/-- `printer` block of `SettingsV1`. -/
structure PrinterSettings where
  format : PrinterFormat
deriving Repr, DecidableEq

/-- `ollama` block of `SettingsV1`. -/
structure OllamaSettings where
  host : String
deriving Repr, DecidableEq

/-- `SettingsV1` from src/Settings.ts. -/
structure SettingsV1 where
  version : ℚ
  printer : PrinterSettings
  ollama : OllamaSettings
  assistant : AssistantSettings
deriving Repr, DecidableEq

/-! ### Scoring and estimate normalization (src/Review.ts lines 232–265) -/

/-- `calculateScore` from src/Review.ts.  The JS truthiness test
`value ? weight : 0` selects the weight exactly when the stored property is
the boolean `true` (`undefined` and `false` are both falsy). -/
def calculateScore (checklist : List ChecklistResult) : ℚ :=
  let totalWeight := (checklist.map (fun r => r.entry.weight)).foldl (· + ·) 0
  let score :=
    (checklist.map (fun r => if r.value = some true then r.entry.weight else 0)).foldl (· + ·) 0
  score / totalWeight

/-- `roundScale` from src/Review.ts: `scale.reduce((a, b) => |a-v| < |b-v| ? a : b, scale[0])`.
JS `reduce` with an initial value folds over the whole array, so `scale[0]`
is both the seed and the first element folded.  On an empty scale the JS
code reads `scale[0] = undefined` and produces `NaN`; the embedding seeds
with `0` there, and every theorem below assumes a non-empty scale. -/
def roundScale (value : ℚ) (scale : List ℚ) : ℚ :=
  scale.foldl (fun a b => if |a - value| < |b - value| then a else b) (scale.headD 0)

/-- `normalizeEstimate` from src/Review.ts. -/
def normalizeEstimate (score : ℚ) (estimate : Estimate) (settings : SettingsV1) : Estimate :=
  let scale := settings.assistant.estimate.storyPoints.scale.map (fun s => s.points)
  let averageConfidence := ((estimate.confidence * score) + estimate.confidence) / 2
  let averageStoryPoints := ((estimate.storyPoints * score) + estimate.storyPoints) / 2
  { confidence := (jsRound averageConfidence : ℤ)
    storyPoints := roundScale averageStoryPoints scale }

/-- Written from the specification's words, for comparison with the code's
`roundScale`: the scale value with minimum absolute distance to `value`,
ties broken by the first occurrence in the declared scale order (the fold
replaces the accumulator only on a strict improvement, so the earliest
minimum wins). -/
def roundScaleFirstTie (value : ℚ) (scale : List ℚ) : ℚ :=
  scale.foldl (fun a b => if |b - value| < |a - value| then b else a) (scale.headD 0)

/-! ### Splitters

JS `String.prototype.split(sep)` splits on each non-overlapping occurrence
of the separator, scanning left to right.  The code splits on `"---"`
(`deserializeEdit`), on `"\n"` and on `": "` (inside the YAML model), so we
give structural, kernel-computable splitters for exactly those separators,
working on `List Char`. -/

/-- Prepend a character to the first fragment of a split result. -/
def consHead (c : Char) : List (List Char) → List (List Char)
  | [] => [[c]]
  | h :: t => (c :: h) :: t

/-- JS `text.split("---")` on character lists. -/
def splitDashes : List Char → List (List Char)
  | [] => [[]]
  | [c] => [[c]]
  | [c, d] => [[c, d]]
  | c :: d :: e :: rest =>
    if c = '-' ∧ d = '-' ∧ e = '-' then [] :: splitDashes rest
    else consHead c (splitDashes (d :: e :: rest))

/-- JS `text.split("\n")` on character lists. -/
def splitNl : List Char → List (List Char)
  | [] => [[]]
  | c :: cs => if c = '\n' then [] :: splitNl cs else consHead c (splitNl cs)

/-- Split a character list at the first occurrence of `": "`; `none` when
the separator does not occur. -/
def splitColon : List Char → Option (List Char × List Char)
  | [] => none
  | [_] => none
  | c :: d :: rest =>
    if c = ':' ∧ d = ' ' then some ([], rest)
    else (splitColon (d :: rest)).map (fun p => (c :: p.1, p.2))

/-- Does the character list contain an occurrence of `"---"`? -/
def hasTriple : List Char → Bool
  | c :: d :: e :: rest => (decide (c = '-' ∧ d = '-' ∧ e = '-')) || hasTriple (d :: e :: rest)
  | _ => false

/-- Is the character list free of newline characters? -/
def nlFree (l : List Char) : Bool := l.all (fun c => decide (c ≠ '\n'))

/-! ### YAML model (jsr:@std/yaml as used by the content codec)

`serializeIssue` prints the `IssueMeta` header with `Yaml.stringify`, which
for this fixed record emits one `key: value` line per field, in insertion
order, followed by a nested two-space-indented block for `creator`, ending in
a newline.  `deserializeEdit` only ever reads the top-level string fields
`id`, `key` and `summary` back, so the parser model collects the top-level
`key: value` lines (skipping indented, empty and valueless lines) into an
association list.  The model is faithful for field values that are free of
newlines; the theorems about the codec carry that hypothesis. -/

/-- One top-level `key: value` YAML line. -/
def yamlLine (k v : String) : String := k ++ ": " ++ v ++ "\n"

/-- JS booleans print as `true` / `false`. -/
def jsBoolStr (b : Bool) : String := if b then "true" else "false"

/-- The nested YAML block for the `creator` author object, in the insertion
order established by `fmtAuthor` in src/Issue.ts. -/
def authorBlock (a : Author) : String :=
  "  accountId: " ++ a.accountId ++ "\n" ++
  "  emailAddress: " ++ a.emailAddress ++ "\n" ++
  "  displayName: " ++ a.displayName ++ "\n" ++
  "  self: " ++ a.self ++ "\n" ++
  "  active: " ++ jsBoolStr a.active ++ "\n" ++
  "  accountType: " ++ a.accountType ++ "\n"

/-- `Yaml.stringify(meta)` for the `IssueMeta` record built by
`serializeIssue`; fields appear in the object-literal insertion order
`id, key, summary, self, created, updated, creator`. -/
def yamlStringifyMeta (m : IssueMeta) : String :=
  yamlLine "id" m.id ++ yamlLine "key" m.key ++ yamlLine "summary" m.summary ++
  yamlLine "self" m.self ++ yamlLine "created" m.created ++ yamlLine "updated" m.updated ++
  "creator:\n" ++ authorBlock m.creator

/-- Parse one line as a top-level `key: value` binding: lines that are
empty, indented, or lack a `": "` separator bind nothing. -/
def parseLine (line : String) : Option (String × String) :=
  match line.data with
  | [] => none
  | c :: _ =>
    if c = ' ' then none
    else (splitColon line.data).map (fun p => (String.mk p.1, String.mk p.2))

/-- Top-level bindings of a YAML document: one per `key: value` line. -/
def parseTopLines (s : String) : List (String × String) :=
  ((splitNl s.data).map String.mk).filterMap parseLine

/-- The header parsing step of `deserializeEdit`: parse the YAML, then
assert that `id`, `key` and `summary` are present as strings. -/
def parseHeaderMeta (header : String) : Option EditMeta :=
  let kvs := parseTopLines header
  match kvs.lookup "id", kvs.lookup "key", kvs.lookup "summary" with
  | some i, some k, some s => some ⟨i, k, s⟩
  | _, _, _ => none

/-! ### Content codec (src/Issue.ts lines 124–168) -/

/-- The `IssueMeta` object assembled by `serializeIssue`. -/
def metaOf (issue : Issue) : IssueMeta :=
  ⟨issue.id, issue.key, issue.self, issue.fields.created, issue.fields.updated,
   issue.fields.summary, issue.fields.creator⟩

/-- `serializeIssue` from src/Issue.ts.  `toMd` stands for the external
`Jira2Md.to_markdown` converter applied to `description || ""` (JS `||`
maps both `null` and `""` to `""`). -/
def serializeIssue (toMd : String → String) (issue : Issue) : String :=
  let header := yamlStringifyMeta (metaOf issue)
  let body := toMd (issue.fields.description.getD "")
  "---\n" ++ header ++ "---\n\n" ++ body

/-- `deserializeEdit` from src/Issue.ts: split the whole document on
`"---"`, parse fragment 1 as the YAML header (asserting `id`, `key`,
`summary` present as strings) and convert fragment 2 back with the external
`Jira2Md.to_jira` (`toJira`).  Assertion failures surface as
`MalformedEdit` errors. -/
def deserializeEdit (toJira : String → String) (text : String) :
    Except String Edit :=
  let parts := (splitDashes text.data).map String.mk
  match parts.get? 1, parts.get? 2 with
  | some header, some body =>
    match parseHeaderMeta header with
    | some m => .ok ⟨m, toJira body⟩
    | none => .error "MalformedEdit"
  | _, _ => .error "MalformedEdit"

/-! ### Line diff (npm:diff `createPatch`, as used by `diffIssue`)

jsdiff's `createPatch` output always starts with the four header lines
`Index: <file>`, a rule of `=` signs, `--- <file>`, `+++ <file>`, and is
followed by hunks that are empty exactly when the two inputs are equal. -/

/-- Minimal model of jsdiff `createPatch`: the invariable header plus a
hunk body that is empty iff the inputs coincide. -/
def createPatch (filename oldStr newStr : String) : String :=
  let header :=
    "Index: " ++ filename ++ "\n" ++
    String.mk (List.replicate 67 '=') ++ "\n" ++
    "--- " ++ filename ++ "\n" ++
    "+++ " ++ filename ++ "\n"
  let hunks :=
    if oldStr = newStr then ""
    else
      "@@\n" ++
      String.intercalate "\n" ((splitNl oldStr.data).map (fun l => String.mk ('-' :: l))) ++ "\n" ++
      String.intercalate "\n" ((splitNl newStr.data).map (fun l => String.mk ('+' :: l)))
  header ++ hunks

/-- `Fmt.green` from jsr:@std/fmt/colors (ANSI escape wrapping). -/
def fmtGreen (s : String) : String := "\x1b[32m" ++ s ++ "\x1b[39m"

/-- `Fmt.red` from jsr:@std/fmt/colors (ANSI escape wrapping). -/
def fmtRed (s : String) : String := "\x1b[31m" ++ s ++ "\x1b[39m"

/-- The per-line colorizer inside `diffIssue` (`line.startsWith` with a
one-character prefix is a head-character test). -/
def fmtPatchLine (line : String) : String :=
  match line.data with
  | '+' :: _ => fmtGreen line
  | '-' :: _ => fmtRed line
  | _ => line

/-- `diffIssue` from src/Issue.ts: serialize both issues, build a patch,
colorize it line by line. -/
def diffIssue (toMd : String → String) (issue edited : Issue) : String :=
  let original := serializeIssue toMd issue
  let updated := serializeIssue toMd edited
  let filename := issue.key ++ ".md"
  let patch := createPatch filename original updated
  String.intercalate "\n" (((splitNl patch.data).map String.mk).map fmtPatchLine)

/-! ### Key-value store (src/Store.ts)

`Store.get` reads the Deno KV entry and returns `cached.value` only when it
is truthy (`if (cached.value) return cached.value; throw NotFound(key)`).
A missing key reads as `null`.  We model one namespace as an association
list and stored JS values by a small value type carrying JS truthiness;
plain objects are always truthy, so typed stores of record values (reviews,
comments) are modelled directly as association lists of those records. -/

/-- A stored JS value, as far as truthiness can observe it.  `vObj` stands
for any object or array (always truthy); `NaN` is not modelled (`ℚ` has
none). -/
inductive KvValue where
  | vNull
  | vBool (b : Bool)
  | vNum (q : ℚ)
  | vStr (s : String)
  | vObj
deriving Repr, DecidableEq

/-- JS truthiness of a stored value. -/
def truthy : KvValue → Bool
  | .vNull => false
  | .vBool b => b
  | .vNum q => decide (q ≠ 0)
  | .vStr s => decide (s ≠ "")
  | .vObj => true

/-- One namespace of the Deno KV store. -/
def KvStore := List (String × KvValue)

/-- `Store.put`: `storage.set([...namespace, key], value)` then return the
value.  Overwriting is modelled by shadowing (lookup finds the newest). -/
def storePut (st : KvStore) (key : String) (v : KvValue) : KvValue × KvStore :=
  (v, (key, v) :: st)

/-- `Store.get`: return the stored value when truthy, otherwise throw
`Deno.errors.NotFound(key)` (also for keys never written, whose KV entry
value is `null`). -/
def storeGet (st : KvStore) (key : String) : Except String KvValue :=
  match List.lookup key st with
  | some v => if truthy v then .ok v else .error key
  | none => .error key

/-! ### Inference capability (npm:ollama, as observed by src/Review.ts)

`runChecklist` and `runEstimate` build their prompt and JSON-schema format
deterministically from the settings, the resolved model identifier and the
serialized issue, call `ollama.generate` and `JSON.parse` the response.
The capability is therefore modelled as two response functions of the model
identifier and the issue: the parsed checklist response is a JS object read
by property access (`String → Option Bool`, `none` = property absent =
`undefined`), and the parsed estimate response is an `Estimate`. -/

structure Inference where
  checklistData : String → Issue → (String → Option Bool)
  estimateData : String → Issue → Estimate

/-- `runChecklist` from src/Review.ts: resolve the model, query the
capability, and map every configured entry to
`{ entry, value: data[entry.key] }`.  A key absent from the response yields
`value = none` (JS `undefined`); no error is raised. -/
def runChecklist (ollama : Inference) (settings : SettingsV1) (issue : Issue)
    (modelOpt : Option String) : List ChecklistResult :=
  let settings1 := settings.assistant.review
  let model := modelOpt.getD settings1.model
  let data := ollama.checklistData model issue
  settings1.checklist.map (fun entry => ⟨entry, data entry.key⟩)

/-- `runEstimate` from src/Review.ts. -/
def runEstimate (ollama : Inference) (settings : SettingsV1) (issue : Issue)
    (modelOpt : Option String) : Estimate :=
  let model := modelOpt.getD settings.assistant.estimate.model
  ollama.estimateData model issue

/-! ### Review Engine (src/Review.ts lines 97–150)

The review store holds `Review` records (JS objects, always truthy, so the
`Store.get` truthiness guard never fires for a present record and the
`.catch(() => null)` coincides with association-list lookup).  `review()`
is modelled as a state-passing function that also counts inference passes:
one pass is the fresh checklist-plus-estimate evaluation (the two
`ollama.generate` requests of a recomputation); the cached path performs
zero passes. -/

def ReviewStore := List (String × Review)

/-- The fresh-review computation inside `review()`: run the checklist and
the estimate (against the same resolved model, since `options1` fixes
`model` before both calls), score, normalize, and assemble the record. -/
def freshReview (ollama : Inference) (settings : SettingsV1) (issue : Issue)
    (model : String) : Review :=
  let checklist := runChecklist ollama settings issue (some model)
  let estimate := runEstimate ollama settings issue (some model)
  let score := calculateScore checklist
  let normalizedEstimate := normalizeEstimate score estimate settings
  ⟨issue.key, model, score, checklist, estimate, normalizedEstimate, issue⟩

/-- `review(issue, options)` from src/Review.ts: return the stored review
unless `force` is set, otherwise recompute, persist and return.  The third
component counts inference passes. -/
def reviewFn (ollama : Inference) (settings : SettingsV1) (store : ReviewStore)
    (issue : Issue) (force : Bool) (modelOpt : Option String) :
    Review × ReviewStore × ℕ :=
  let fresh :=
    let model := modelOpt.getD settings.assistant.review.model
    let r := freshReview ollama settings issue model
    (r, (issue.key, r) :: store, 1)
  match List.lookup issue.key store with
  | some existing => if force then fresh else (existing, store, 0)
  | none => fresh

/-- `diff(issue)` from src/Review.ts: no stored review reports
`{hasReview: false, isOutdated: true}`; otherwise the truthiness of the
`diffIssue` patch decides `isOutdated`. -/
def diffFn (toMd : String → String) (store : ReviewStore) (issue : Issue) : ReviewDiff :=
  match List.lookup issue.key store with
  | none => ⟨issue.key, false, true, ""⟩
  | some review =>
    let patch := diffIssue toMd review.issue issue
    if patch = "" then ⟨issue.key, true, false, ""⟩
    else ⟨issue.key, true, true, patch⟩

/-! ### Report rendering (src/Review.ts lines 267–306)

`publish` renders the review with `fmtJira = Jira2Md.to_jira ∘ fmtMarkdown`.
`fmtMarkdown` is a pure string build (rational-to-string display differs
from JS float display, which only affects the rendered digits, not the
determinism the publication gate relies on); `to_jira` stays an abstract
converter parameter. -/

def fmtConfidence (review : Review) : String :=
  toString (jsRound review.normalizedEstimate.confidence) ++ "%"

def fmtStoryPoints (review : Review) : String :=
  toString review.normalizedEstimate.storyPoints

def fmtScore (review : Review) : String :=
  toString (jsRound (review.score * 100)) ++ "%"

def fmtChecklistEntry (r : ChecklistResult) : String :=
  if r.value = some true then
    "\x7bcolor:green\x7d**✓**\x7bcolor\x7d " ++ r.entry.description
  else
    "\x7bcolor:red\x7d**✗**\x7bcolor\x7d " ++ r.entry.description

def fmtMarkdown (review : Review) : String :=
  let checklist := review.checklist.map fmtChecklistEntry
  "\n\n#### " ++ review.issue.key ++ "\n\n- " ++
  String.intercalate "\n- " checklist ++
  "\n\nRefinement Score: " ++ fmtScore review ++
  "\nEstimated Story Points: " ++ fmtStoryPoints review ++
  "\nConfidence: " ++ fmtConfidence review ++
  "\nModel: " ++ review.model ++ "\n"

/-! ### Publication gate (src/Issue.ts `upsertComment`, src/Review.ts `publish`)

The `my-comments` store maps issue keys to the comment this tool posted;
the remote side is modelled as comment-id-keyed state.  `postComment` is
modelled with an abstract server-assigned comment identity (`fresh`) whose
body the server echoes back; `updateComment` rewrites the remote body.  The
third result component counts remote writes (posts plus updates); fetches
are reads and do not count.  The `fmtCommentWebLink` URL juggling is not
modelled (no claim observes it). -/

structure PubState where
  myComments : List (String × Comment)
  remote : List (String × Comment)
deriving Repr, DecidableEq

structure UpsertResult where
  published : Bool
  comment : Comment
deriving Repr, DecidableEq

/-- Overwrite a comment in an association list. -/
def assocPut (st : List (String × Comment)) (k : String) (c : Comment) :
    List (String × Comment) := (k, c) :: st

/-- `upsertComment(issue, body)` from src/Issue.ts.  With a cached comment
id, the current remote comment is fetched (failure to fetch propagates,
modelled as `none`); the in-place update happens only under the JS
truthiness test `body && comment.body && comment.body !== body`.  With no
cached id, a comment is posted and recorded. -/
def upsertComment (st : PubState) (issue : Issue) (body : String)
    (fresh : Comment) : Option (UpsertResult × PubState × ℕ) :=
  match List.lookup issue.key st.myComments with
  | some cached =>
    match List.lookup cached.id st.remote with
    | none => none
    | some comment =>
      if body ≠ "" ∧ comment.body ≠ "" ∧ comment.body ≠ body then
        some (⟨true, comment⟩,
          { st with remote := assocPut st.remote comment.id { comment with body := body } }, 1)
      else
        some (⟨false, comment⟩, st, 0)
  | none =>
    let comment := { fresh with body := body }
    some (⟨true, comment⟩,
      ⟨(issue.key, comment) :: st.myComments, assocPut st.remote comment.id comment⟩, 1)

/-- `publish(review)` from src/Review.ts: render with
`fmtJira = toJira ∘ fmtMarkdown` and upsert on the review's issue. -/
def publishFn (toJira : String → String) (st : PubState) (review : Review)
    (fresh : Comment) : Option (UpsertResult × PubState × ℕ) :=
  upsertComment st review.issue (toJira (fmtMarkdown review)) fresh

/-! ### Authoring checksum (src/Command.ts `AuthoringService`)

`checksum(issue) = hash([model, hash(serialize(issue))].join(":"))` with
SHA-512 as `hash` (modelled as an abstract digest function) and the
`AuthoringService` variant of `serialize` (header and body joined without
the blank line). -/

/-- The `AuthoringService.serialize` variant (`---\n${header}---${body}`). -/
def authoringSerialize (toMd : String → String) (issue : Issue) : String :=
  "---\n" ++ yamlStringifyMeta (metaOf issue) ++ "---" ++ toMd (issue.fields.description.getD "")

/-- `AuthoringService.checksum`: fingerprint of the serialized issue,
joined with the estimate model identifier, fingerprinted again. -/
def authoringChecksum (hash : String → String) (toMd : String → String)
    (settings : SettingsV1) (issue : Issue) : String :=
  let model := settings.assistant.estimate.model
  let issueHash := hash (authoringSerialize toMd issue)
  hash (String.intercalate ":" [model, issueHash])

/-! ### Settings validation (src/Settings.ts)

`validateSettings` runs the npm `jsonschema` validator over
`SettingsSchemaV1()` and throws iff validation fails.  The schema is
hand-compiled into a decidable check on a JSON value type: `required`
demands presence, `properties` constrain the type of present members,
`items` constrains every array element, `enum` restricts values; nothing
constrains array lengths or number ranges. -/

inductive Json where
  | str (s : String)
  | num (q : ℚ)
  | bool (b : Bool)
  | null
  | arr (elems : List Json)
  | obj (fields : List (String × Json))
deriving Repr

def Json.lookup (fields : List (String × Json)) (k : String) : Option Json :=
  List.lookup k fields

/-- A present member, if any, must be a string. -/
def optStr (fields : List (String × Json)) (k : String) : Bool :=
  match Json.lookup fields k with
  | none => true
  | some (.str _) => true
  | some _ => false

/-- A present member, if any, must be a number. -/
def optNum (fields : List (String × Json)) (k : String) : Bool :=
  match Json.lookup fields k with
  | none => true
  | some (.num _) => true
  | some _ => false

/-- `required` plus `properties` checking for one object member against a
member validator. -/
def reqMem (fields : List (String × Json)) (k : String) (check : Json → Bool) : Bool :=
  match Json.lookup fields k with
  | none => false
  | some v => check v

def isStr : Json → Bool
  | .str _ => true
  | _ => false

def isNum : Json → Bool
  | .num _ => true
  | _ => false

/-- The `checklist.items` subschema: object with required string `key`,
string `description`, number `weight`. -/
def checkChecklistItem : Json → Bool
  | .obj f => reqMem f "key" isStr && reqMem f "description" isStr && reqMem f "weight" isNum
  | _ => false

/-- The `review` subschema. -/
def checkReview : Json → Bool
  | .obj f =>
    reqMem f "model" isStr && reqMem f "comment" isStr &&
    reqMem f "checklist" (fun j =>
      match j with
      | .arr items => items.all checkChecklistItem
      | _ => false)
  | _ => false

/-- The `scale.items` subschema: object with required number `points` and
string-array `examples`. -/
def checkScaleItem : Json → Bool
  | .obj f =>
    reqMem f "points" isNum &&
    reqMem f "examples" (fun j =>
      match j with
      | .arr items => items.all isStr
      | _ => false)
  | _ => false

/-- The `storyPoints` subschema. -/
def checkStoryPoints : Json → Bool
  | .obj f =>
    reqMem f "comment" isStr && reqMem f "description" isStr &&
    reqMem f "scale" (fun j =>
      match j with
      | .arr items => items.all checkScaleItem
      | _ => false)
  | _ => false

/-- The `confidence` subschema. -/
def checkConfidence : Json → Bool
  | .obj f => reqMem f "comment" isStr && reqMem f "description" isStr
  | _ => false

/-- The `estimate` subschema. -/
def checkEstimate : Json → Bool
  | .obj f =>
    reqMem f "model" isStr && reqMem f "storyPoints" checkStoryPoints &&
    reqMem f "confidence" checkConfidence
  | _ => false

/-- The `nitpick` subschema. -/
def checkNitpick : Json → Bool
  | .obj f =>
    reqMem f "model" isStr && reqMem f "task" isStr &&
    reqMem f "instructions" (fun j =>
      match j with
      | .arr items => items.all isStr
      | _ => false) &&
    reqMem f "template" isStr
  | _ => false

/-- The `assistant` subschema. -/
def checkAssistant : Json → Bool
  | .obj f =>
    reqMem f "review" checkReview && reqMem f "estimate" checkEstimate &&
    reqMem f "nitpick" checkNitpick
  | _ => false

/-- The `ollama` subschema. -/
def checkOllama : Json → Bool
  | .obj f => reqMem f "host" isStr
  | _ => false

/-- The `printer` subschema (`format` a string drawn from `yaml`/`json`). -/
def checkPrinter : Json → Bool
  | .obj f =>
    reqMem f "format" (fun j =>
      match j with
      | .str s => decide (s = "yaml" ∨ s = "json")
      | _ => false)
  | _ => false

/-- `validateSettings`: the whole `SettingsSchemaV1()` check; the TS code
throws exactly when this is `false`. -/
def validateSettingsJson : Json → Bool
  | .obj f =>
    reqMem f "version" (fun j =>
      match j with
      | .num q => decide (q = 1)
      | _ => false) &&
    reqMem f "printer" checkPrinter &&
    reqMem f "ollama" checkOllama &&
    reqMem f "assistant" checkAssistant
  | _ => false

/-! #### Encoding a typed settings value as its JSON document -/

def checklistEntryToJson (e : ChecklistEntry) : Json :=
  .obj [("key", .str e.key), ("description", .str e.description), ("weight", .num e.weight)]

def scaleEntryToJson (s : ScaleEntry) : Json :=
  .obj [("points", .num s.points), ("examples", .arr (s.examples.map Json.str))]

def settingsToJson (s : SettingsV1) : Json :=
  .obj
    [ ("version", .num s.version)
    , ("printer", .obj [("format", .str s.printer.format.toStr)])
    , ("ollama", .obj [("host", .str s.ollama.host)])
    , ("assistant", .obj
        [ ("review", .obj
            [ ("model", .str s.assistant.review.model)
            , ("comment", .str s.assistant.review.comment)
            , ("checklist", .arr (s.assistant.review.checklist.map checklistEntryToJson)) ])
        , ("estimate", .obj
            [ ("model", .str s.assistant.estimate.model)
            , ("confidence", .obj
                [ ("comment", .str s.assistant.estimate.confidence.comment)
                , ("description", .str s.assistant.estimate.confidence.description) ])
            , ("storyPoints", .obj
                [ ("comment", .str s.assistant.estimate.storyPoints.comment)
                , ("description", .str s.assistant.estimate.storyPoints.description)
                , ("scale", .arr (s.assistant.estimate.storyPoints.scale.map scaleEntryToJson)) ]) ])
        , ("nitpick", .obj
            [ ("model", .str s.assistant.nitpick.model)
            , ("task", .str s.assistant.nitpick.task)
            , ("instructions", .arr (s.assistant.nitpick.instructions.map Json.str))
            , ("template", .str s.assistant.nitpick.template) ]) ]) ]

/-! ### Concrete sample data for witnesses and counterexamples -/

def sampleAuthor : Author :=
  ⟨"https://jira.example.com/user/1", "acc1", "dev@example.com", "Dev One", true, "atlassian"⟩

def sampleIssue : Issue :=
  { id := "10001"
    self := "https://jira.example.com/issue/10001"
    key := "KAREN-1"
    fields :=
      { summary := "Add login button"
        description := some "Some body text"
        updated := "2024-02-01T10:00:00.000+0000"
        created := "2024-01-01T10:00:00.000+0000"
        creator := sampleAuthor
        comments := [] } }

def entryA : ChecklistEntry := ⟨"a", "Has a clear subject", 1⟩

def entryB : ChecklistEntry := ⟨"b", "Has expected outcomes", 3⟩

def sampleScale : List ScaleEntry :=
  [⟨1, ["one-liner"]⟩, ⟨2, ["small fix"]⟩, ⟨3, ["small feature"]⟩,
   ⟨5, ["medium feature"]⟩, ⟨8, ["large feature"]⟩]

def sampleSettings : SettingsV1 :=
  { version := 1
    printer := ⟨.yaml⟩
    ollama := ⟨"http://localhost:11434"⟩
    assistant :=
      { review := ⟨"llama3.3", "Review the ticket", [entryA, entryB]⟩
        estimate :=
          ⟨"llama3.3", ⟨"confidence?", "0-100"⟩, ⟨"points?", "fibonacci", sampleScale⟩⟩
        nitpick := ⟨"llama3.3", "tidy", ["keep meaning"], "## Summary"⟩ } }

/-- An inference capability answering `a := true`, `b := false`, and an
estimate of `{confidence: 80, storyPoints: 5}`. -/
def sampleInference : Inference :=
  { checklistData := fun _ _ k => if k = "a" then some true else if k = "b" then some false else none
    estimateData := fun _ _ => ⟨80, 5⟩ }

/-- An inference capability whose checklist response is missing every key. -/
def emptyInference : Inference :=
  { checklistData := fun _ _ _ => none
    estimateData := fun _ _ => ⟨80, 5⟩ }

/-- A settings document with an empty checklist (hence zero total weight)
and an empty story-point scale. -/
def emptyMisconfigSettings : SettingsV1 :=
  { version := 1
    printer := ⟨.yaml⟩
    ollama := ⟨"http://localhost:11434"⟩
    assistant :=
      { review := ⟨"llama3.3", "Review the ticket", []⟩
        estimate := ⟨"llama3.3", ⟨"confidence?", "0-100"⟩, ⟨"points?", "fibonacci", []⟩⟩
        nitpick := ⟨"llama3.3", "tidy", [], "## Summary"⟩ } }

/-- A settings document whose single checklist entry has weight 0, so the
total checklist weight is zero. -/
def zeroWeightSettings : SettingsV1 :=
  { version := 1
    printer := ⟨.json⟩
    ollama := ⟨"http://localhost:11434"⟩
    assistant :=
      { review := ⟨"llama3.3", "Review the ticket", [⟨"a", "Anything", 0⟩]⟩
        estimate := ⟨"llama3.3", ⟨"confidence?", "0-100"⟩, ⟨"points?", "fibonacci", sampleScale⟩⟩
        nitpick := ⟨"llama3.3", "tidy", [], "## Summary"⟩ } }

/-! ## Claim C10 — falsy stored values read as absent -/

/-- C10.  The store treats falsy stored values as absent: `get` throws
`NotFound` for keys never written, and also after `put(key, v)` whenever
`v` is falsy (for example the empty string); `get` returns the stored value
after `put(key, v)` exactly when `v` is truthy. -/
theorem store_falsy_values_read_as_absent :
    (∀ st key, List.lookup key st = none → storeGet st key = .error key) ∧
    (∀ st key, storeGet (storePut st key (.vStr "")).2 key = .error key) ∧
    (∀ st key v, truthy v = false → storeGet (storePut st key v).2 key = .error key) ∧
    (∀ st key v, storeGet (storePut st key v).2 key = .ok v ↔ truthy v = true) := by
  refine ⟨?_, ?_, ?_, ?_⟩
  · intro st key h
    simp [storeGet, h]
  · intro st key
    simp [storeGet, storePut, truthy, List.lookup]
  · intro st key v h
    simp [storeGet, storePut, List.lookup, h]
  · intro st key v
    cases h : truthy v <;> simp [storeGet, storePut, List.lookup, h]

/-- Witness for C10 at concrete inputs: an unwritten key, a stored empty
string, a stored `0`, a stored `false`, and a stored truthy string. -/
theorem store_falsy_values_read_as_absent_witness :
    storeGet [] "k" = .error "k" ∧
    storeGet (storePut [] "k" (.vStr "")).2 "k" = .error "k" ∧
    storeGet (storePut [] "k" (.vNum 0)).2 "k" = .error "k" ∧
    storeGet (storePut [] "k" (.vBool false)).2 "k" = .error "k" ∧
    storeGet (storePut [] "k" (.vStr "x")).2 "k" = .ok (.vStr "x") :=
  ⟨store_falsy_values_read_as_absent.1 [] "k" rfl,
   store_falsy_values_read_as_absent.2.1 [] "k",
   store_falsy_values_read_as_absent.2.2.1 [] "k" (.vNum 0) (by decide),
   store_falsy_values_read_as_absent.2.2.1 [] "k" (.vBool false) (by decide),
   (store_falsy_values_read_as_absent.2.2.2 [] "k" (.vStr "x")).mpr (by decide)⟩

/-! ## Claim C1 — review caching -/

/-- C1.  With a stored review present and `force` false, `review` returns
the stored record unchanged with zero inference passes; starting from a
state without a stored review, two successive `review(issue, {force:false})`
calls perform exactly one inference pass in total and return identical
Review records. -/
theorem review_cache_correct :
    (∀ ollama settings store issue modelOpt r,
      List.lookup issue.key store = some r →
      reviewFn ollama settings store issue false modelOpt = (r, store, 0)) ∧
    (∀ ollama settings store issue modelOpt,
      List.lookup issue.key store = none →
      (reviewFn ollama settings store issue false modelOpt).2.2 +
        (reviewFn ollama settings
          (reviewFn ollama settings store issue false modelOpt).2.1
          issue false modelOpt).2.2 = 1 ∧
      (reviewFn ollama settings
          (reviewFn ollama settings store issue false modelOpt).2.1
          issue false modelOpt).1 =
        (reviewFn ollama settings store issue false modelOpt).1) := by
  constructor
  · intro o s st i m r h
    simp [reviewFn, h]
  · intro o s st i m h
    simp [reviewFn, h, List.lookup]

/-- Witness for C1: a store holding a review for the sample issue is
returned unchanged without inference, and a fresh store needs exactly one
pass over two calls. -/
theorem review_cache_correct_witness :
    reviewFn sampleInference sampleSettings
        [("KAREN-1", freshReview sampleInference sampleSettings sampleIssue "m")]
        sampleIssue false none =
      (freshReview sampleInference sampleSettings sampleIssue "m",
       [("KAREN-1", freshReview sampleInference sampleSettings sampleIssue "m")], 0) ∧
    (reviewFn sampleInference sampleSettings [] sampleIssue false none).2.2 +
      (reviewFn sampleInference sampleSettings
        (reviewFn sampleInference sampleSettings [] sampleIssue false none).2.1
        sampleIssue false none).2.2 = 1 ∧
    (reviewFn sampleInference sampleSettings
        (reviewFn sampleInference sampleSettings [] sampleIssue false none).2.1
        sampleIssue false none).1 =
      (reviewFn sampleInference sampleSettings [] sampleIssue false none).1 :=
  ⟨review_cache_correct.1 sampleInference sampleSettings _ sampleIssue none _ rfl,
   review_cache_correct.2 sampleInference sampleSettings [] sampleIssue none rfl⟩

/-! ## Claim C8 — the persisted review record and the checksum helper -/

/-- C8 counterexample.  The object literal persisted by `review()` has the
seven fields `key, model, score, checklist, estimate, normalizedEstimate,
issue` and no `checksum` field, refuting the claim that every persisted
Review record contains one. -/
theorem review_record_checksum_missing : "checksum" ∉ reviewRecordFields := by decide

/-- C8 amended.  The record persisted by the Review Engine carries no
checksum: its field names are exactly `reviewRecordFields`, which do not
include `checksum`.  The `AuthoringService.checksum` helper with the
claimed formula (fingerprint of the serialized ticket, joined with the
model identifier, fingerprinted again) exists but is not part of the
record. -/
theorem review_record_no_checksum :
    reviewRecordFields =
      ["key", "model", "score", "checklist", "estimate", "normalizedEstimate", "issue"] ∧
    "checksum" ∉ reviewRecordFields ∧
    ∀ (hash toMd : String → String) (settings : SettingsV1) (issue : Issue),
      authoringChecksum hash toMd settings issue =
        hash (String.intercalate ":"
          [settings.assistant.estimate.model, hash (authoringSerialize toMd issue)]) :=
  ⟨rfl, by decide, fun _ _ _ _ => rfl⟩

/-! ## Claim C9 — settings validation is structural only -/

/-- C9 counterexample.  Settings documents with an empty checklist (zero
total weight) and an empty story-point scale pass `validateSettings`, as
does a document whose only checklist entry has weight 0; the claim that
validation fails on them is false. -/
theorem validate_settings_accepts_empty_checklist :
    validateSettingsJson (settingsToJson emptyMisconfigSettings) = true ∧
    emptyMisconfigSettings.assistant.review.checklist = [] ∧
    emptyMisconfigSettings.assistant.estimate.storyPoints.scale = [] ∧
    validateSettingsJson (settingsToJson zeroWeightSettings) = true ∧
    ((zeroWeightSettings.assistant.review.checklist.map (fun e => e.weight)).foldl (· + ·) 0
      = 0) := by
  refine ⟨by decide, rfl, rfl, by decide, by norm_num [zeroWeightSettings]⟩

/-- Every encoded checklist passes the `items` subschema (no length or
weight constraint exists). -/
theorem all_checklist_items_pass (l : List ChecklistEntry) :
    (l.map checklistEntryToJson).all checkChecklistItem = true := by
  induction l with
  | nil => rfl
  | cons e t ih => simp_all [checklistEntryToJson, checkChecklistItem, reqMem, Json.lookup,
      List.lookup, isStr, isNum]

/-- Every encoded scale passes the `items` subschema (no length
constraint exists). -/
theorem all_scale_items_pass (l : List ScaleEntry) :
    (l.map scaleEntryToJson).all checkScaleItem = true := by
  induction l with
  | nil => rfl
  | cons e t ih =>
    simp_all [scaleEntryToJson, checkScaleItem, reqMem, Json.lookup, List.lookup, isStr, isNum,
      List.all_map, Function.comp_def]

/-- C9 amended.  `validateSettings` enforces only the structural schema:
every well-typed settings document (with the literal `version = 1`) passes
validation, in particular documents with an empty checklist, zero total
checklist weight, or an empty scale — such misconfiguration is not rejected
at settings-load time. -/
theorem validate_settings_structural_only :
    ∀ s : SettingsV1, s.version = 1 → validateSettingsJson (settingsToJson s) = true := by
  intro s h
  have hc := all_checklist_items_pass s.assistant.review.checklist
  have hs := all_scale_items_pass s.assistant.estimate.storyPoints.scale
  have hstr : ∀ l : List String, (l.map Json.str).all isStr = true := by
    intro l
    simp [List.all_map, Function.comp_def, isStr]
  cases hf : s.printer.format <;>
    simp [settingsToJson, validateSettingsJson, reqMem, Json.lookup, List.lookup,
      checkPrinter, checkOllama, checkAssistant, checkReview, checkEstimate, checkNitpick,
      checkStoryPoints, checkConfidence, isStr, isNum, h, hf, PrinterFormat.toStr,
      hc, hs, hstr]

/-- Witness for C9 amended at the empty-checklist document. -/
theorem validate_settings_structural_only_witness :
    emptyMisconfigSettings.version = 1 ∧
    validateSettingsJson (settingsToJson emptyMisconfigSettings) = true :=
  ⟨rfl, validate_settings_structural_only emptyMisconfigSettings rfl⟩

/-! ## Claim C7 — checklist parsing of the inference response -/

/-- C7 counterexample.  With a response missing every configured key,
`runChecklist` raises no error: it returns one result per configured entry
whose `value` is the absent property (`undefined`, modelled `none`), and
scoring then treats those values as false (score 0), refuting the claim
that a missing key surfaces as an error. -/
theorem run_checklist_missing_key_no_error :
    runChecklist emptyInference sampleSettings sampleIssue none =
      [⟨entryA, none⟩, ⟨entryB, none⟩] ∧
    calculateScore (runChecklist emptyInference sampleSettings sampleIssue none) = 0 := by
  refine ⟨rfl, ?_⟩
  have hne : (none : Option Bool) = some true ↔ False := by simp
  norm_num [calculateScore, runChecklist, emptyInference, sampleSettings, entryA, entryB, hne]

/-- C7 amended.  `runChecklist` always returns exactly one result per
configured entry, in configuration order; when the response contains every
configured key the values are all booleans; a key missing from the response
produces `value = undefined` for that entry, with no error raised. -/
theorem run_checklist_shape :
    ∀ ollama settings issue modelOpt,
      ((runChecklist ollama settings issue modelOpt).map (fun r => r.entry)
          = settings.assistant.review.checklist) ∧
      ((∀ e ∈ settings.assistant.review.checklist,
          (ollama.checklistData (modelOpt.getD settings.assistant.review.model) issue
            e.key).isSome) →
        ∀ r ∈ runChecklist ollama settings issue modelOpt, r.value.isSome) ∧
      (∀ e ∈ settings.assistant.review.checklist,
        ollama.checklistData (modelOpt.getD settings.assistant.review.model) issue e.key
          = none →
        (⟨e, none⟩ : ChecklistResult) ∈ runChecklist ollama settings issue modelOpt) := by
  intro o s i m
  refine ⟨?_, ?_, ?_⟩
  · simp [runChecklist, List.map_map, Function.comp_def]
  · intro h r hr
    simp only [runChecklist, List.mem_map] at hr
    obtain ⟨e, he, rfl⟩ := hr
    exact h e he
  · intro e he hnone
    simp only [runChecklist, List.mem_map]
    exact ⟨e, he, by simp [hnone]⟩

/-- Witness for C7 amended: the entry list is reproduced in order, and the
missing-key case yields the undefined-valued result for the first entry. -/
theorem run_checklist_shape_witness :
    ((runChecklist emptyInference sampleSettings sampleIssue none).map (fun r => r.entry)
        = sampleSettings.assistant.review.checklist) ∧
    (⟨entryA, none⟩ : ChecklistResult) ∈
      runChecklist emptyInference sampleSettings sampleIssue none :=
  ⟨(run_checklist_shape emptyInference sampleSettings sampleIssue none).1,
   (run_checklist_shape emptyInference sampleSettings sampleIssue none).2.2 entryA
     (by decide) rfl⟩

/-! ## Claim C3 — the publication gate -/

/-- A previously posted comment whose remote body is currently empty. -/
def cmtEmptyBody : Comment := ⟨"7", "https://jira.example.com/comment/7", sampleAuthor,
  "2024-01-03", "2024-01-03", ""⟩

/-- A previously posted comment whose remote body reads `Old report`. -/
def cmtOldBody : Comment := ⟨"7", "https://jira.example.com/comment/7", sampleAuthor,
  "2024-01-03", "2024-01-03", "Old report"⟩

/-- A previously posted comment whose remote body reads `R`. -/
def cmtRBody : Comment := ⟨"7", "https://jira.example.com/comment/7", sampleAuthor,
  "2024-01-03", "2024-01-03", "R"⟩

/-- The server-assigned identity of a freshly posted comment. -/
def freshCmt : Comment := ⟨"9", "https://jira.example.com/comment/9", sampleAuthor,
  "2024-01-04", "2024-01-04", "ignored"⟩

/-- A small stored review over the sample issue snapshot. -/
def storedReview : Review := ⟨"KAREN-1", "m", 0, [], ⟨80, 5⟩, ⟨50, 3⟩, sampleIssue⟩

/-- C3 counterexample.  With a recorded comment id whose current remote
body is empty and therefore differs from the freshly rendered non-empty
body, `upsertComment` performs no remote write and returns
`published = false` — the claim that a differing remote body is updated in
place with `published = true` is false here (the truthiness guard
`body && comment.body && comment.body !== body` fails on the empty remote
body). -/
theorem upsert_empty_remote_body_skips_update :
    upsertComment ⟨[("KAREN-1", cmtEmptyBody)], [("7", cmtEmptyBody)]⟩ sampleIssue
        "Fresh report" freshCmt =
      some (⟨false, cmtEmptyBody⟩, ⟨[("KAREN-1", cmtEmptyBody)], [("7", cmtEmptyBody)]⟩, 0) ∧
    cmtEmptyBody.body ≠ "Fresh report" := by
  refine ⟨by decide, by decide⟩

/-- C3 amended.  The publication gate: with a recorded comment id and a
remote body equal to the rendered body, no remote write happens and
`published = false`; with a differing remote body the comment is updated in
place and `published = true` provided both the rendered body and the
current remote body are non-empty (an empty body on either side skips the
write and returns `published = false`); with no recorded id a comment is
posted and `published = true`; and two successive `publish` calls with an
unchanged report, starting with no recorded id, perform exactly one remote
write, the second call returning `published = false`. -/
theorem upsert_publish_gate :
    (∀ st (issue : Issue) body fresh cached comment,
      List.lookup issue.key st.myComments = some cached →
      List.lookup cached.id st.remote = some comment →
      comment.body = body →
      upsertComment st issue body fresh = some (⟨false, comment⟩, st, 0)) ∧
    (∀ st (issue : Issue) body fresh cached comment,
      List.lookup issue.key st.myComments = some cached →
      List.lookup cached.id st.remote = some comment →
      comment.body ≠ body → body ≠ "" → comment.body ≠ "" →
      upsertComment st issue body fresh =
        some (⟨true, comment⟩,
          { st with remote := assocPut st.remote comment.id { comment with body := body } },
          1)) ∧
    (∀ st (issue : Issue) body fresh,
      List.lookup issue.key st.myComments = none →
      upsertComment st issue body fresh =
        some (⟨true, { fresh with body := body }⟩,
          ⟨(issue.key, { fresh with body := body }) :: st.myComments,
           assocPut st.remote fresh.id { fresh with body := body }⟩, 1)) ∧
    (∀ (toJira : String → String) st (review : Review) fresh fresh2,
      List.lookup review.issue.key st.myComments = none →
      ∃ r1 st1 r2,
        publishFn toJira st review fresh = some (r1, st1, 1) ∧
        publishFn toJira st1 review fresh2 = some (r2, st1, 0) ∧
        r2.published = false) := by
  refine ⟨?_, ?_, ?_, ?_⟩
  · intro st issue body fresh cached comment h1 h2 h3
    subst h3
    simp [upsertComment, h1, h2]
  · intro st issue body fresh cached comment h1 h2 h3 h4 h5
    simp [upsertComment, h1, h2, h3, h4, h5]
  · intro st issue body fresh h
    simp [upsertComment, h]
  · intro toJira st review fresh fresh2 h
    refine ⟨⟨true, { fresh with body := toJira (fmtMarkdown review) }⟩,
      ⟨(review.issue.key, { fresh with body := toJira (fmtMarkdown review) }) :: st.myComments,
       assocPut st.remote fresh.id { fresh with body := toJira (fmtMarkdown review) }⟩,
      ⟨false, { fresh with body := toJira (fmtMarkdown review) }⟩, ?_, ?_, rfl⟩
    · simp [publishFn, upsertComment, h]
    · simp [publishFn, upsertComment, assocPut, List.lookup]

/-- Witness for C3 amended at concrete states: equal remote body skips,
differing non-empty remote body updates in place, missing record posts, and
a double publish from a fresh state writes once. -/
theorem upsert_publish_gate_witness :
    upsertComment ⟨[("KAREN-1", cmtRBody)], [("7", cmtRBody)]⟩ sampleIssue "R" freshCmt =
      some (⟨false, cmtRBody⟩, ⟨[("KAREN-1", cmtRBody)], [("7", cmtRBody)]⟩, 0) ∧
    upsertComment ⟨[("KAREN-1", cmtOldBody)], [("7", cmtOldBody)]⟩ sampleIssue "R" freshCmt =
      some (⟨true, cmtOldBody⟩,
        ⟨[("KAREN-1", cmtOldBody)],
         assocPut [("7", cmtOldBody)] "7" { cmtOldBody with body := "R" }⟩, 1) ∧
    upsertComment ⟨[], []⟩ sampleIssue "R" freshCmt =
      some (⟨true, { freshCmt with body := "R" }⟩,
        ⟨[("KAREN-1", { freshCmt with body := "R" })],
         assocPut [] "9" { freshCmt with body := "R" }⟩, 1) ∧
    (∃ r1 st1 r2,
      publishFn id ⟨[], []⟩ storedReview freshCmt = some (r1, st1, 1) ∧
      publishFn id st1 storedReview freshCmt = some (r2, st1, 0) ∧
      r2.published = false) :=
  ⟨upsert_publish_gate.1 _ sampleIssue "R" freshCmt cmtRBody cmtRBody rfl rfl rfl,
   upsert_publish_gate.2.1 _ sampleIssue "R" freshCmt cmtOldBody cmtOldBody rfl rfl
     (by decide) (by decide) (by decide),
   upsert_publish_gate.2.2.1 _ sampleIssue "R" freshCmt rfl,
   upsert_publish_gate.2.2.2 id ⟨[], []⟩ storedReview freshCmt freshCmt rfl⟩

/-! ## Claim C2 — staleness detection -/

set_option maxRecDepth 8000 in
/-- C2.  The no-review case reports `{hasReview: false, isOutdated: true}`
as claimed, but a stored review whose embedded snapshot serializes
identically to the current issue is still reported outdated: jsdiff's
`createPatch` output always begins with its header, so the patch string is
never empty and the truthiness test `if (patch)` in `diff()` always takes
the outdated branch (its `isOutdated: false` branch is unreachable). -/
theorem diff_identical_snapshot_reports_outdated :
    diffFn id [] sampleIssue = ⟨"KAREN-1", false, true, ""⟩ ∧
    storedReview.issue = sampleIssue ∧
    serializeIssue id storedReview.issue = serializeIssue id sampleIssue ∧
    (diffFn id [("KAREN-1", storedReview)] sampleIssue).hasReview = true ∧
    (diffFn id [("KAREN-1", storedReview)] sampleIssue).isOutdated = true ∧
    (diffFn id [("KAREN-1", storedReview)] sampleIssue).patch ≠ "" := by
  exact ⟨rfl, rfl, rfl, by decide, by decide, by decide⟩

/-! ## Claim C4 — score bounds -/

/-- Sum of all configured weights of a checklist result list. -/
def sumWeights (c : List ChecklistResult) : ℚ := (c.map (fun r => r.entry.weight)).sum

/-- Sum of the weights of the entries answered `true`. -/
def sumTrueWeights (c : List ChecklistResult) : ℚ :=
  (c.map (fun r => if r.value = some true then r.entry.weight else 0)).sum

/-- JS `reduce((a, b) => a + b, 0)` is summation. -/
theorem foldl_add_eq_sum (l : List ℚ) (a : ℚ) : l.foldl (· + ·) a = a + l.sum := by
  induction l generalizing a with
  | nil => simp
  | cons x t ih => simp [List.foldl_cons, ih, List.sum_cons]; ring

/-- `calculateScore` computes the quotient of the two weight sums. -/
theorem calculateScore_eq (c : List ChecklistResult) :
    calculateScore c = sumTrueWeights c / sumWeights c := by
  simp [calculateScore, foldl_add_eq_sum, sumWeights, sumTrueWeights]

theorem sumTrueWeights_nonneg (c : List ChecklistResult)
    (h : ∀ r ∈ c, 0 < r.entry.weight) : 0 ≤ sumTrueWeights c := by
  induction c with
  | nil => simp [sumTrueWeights]
  | cons r t ih =>
    have hr := h r (by simp)
    have ht := ih (fun x hx => h x (by simp [hx]))
    simp only [sumTrueWeights, List.map_cons, List.sum_cons] at *
    have h0 : (0:ℚ) ≤ if r.value = some true then r.entry.weight else 0 := by
      split
      · exact le_of_lt hr
      · exact le_refl 0
    linarith

theorem sumTrueWeights_le_sumWeights (c : List ChecklistResult)
    (h : ∀ r ∈ c, 0 < r.entry.weight) : sumTrueWeights c ≤ sumWeights c := by
  induction c with
  | nil => simp [sumTrueWeights, sumWeights]
  | cons r t ih =>
    have hr := h r (by simp)
    have ht := ih (fun x hx => h x (by simp [hx]))
    simp only [sumTrueWeights, sumWeights, List.map_cons, List.sum_cons] at *
    have : (if r.value = some true then r.entry.weight else 0) ≤ r.entry.weight := by
      split
      · exact le_refl _
      · exact le_of_lt hr
    linarith

theorem sumWeights_pos (c : List ChecklistResult) (hne : c ≠ [])
    (h : ∀ r ∈ c, 0 < r.entry.weight) : 0 < sumWeights c := by
  cases c with
  | nil => exact absurd rfl hne
  | cons r t =>
    have hr := h r (by simp)
    have ht : 0 ≤ sumWeights t := by
      have := sumTrueWeights_le_sumWeights t (fun x hx => h x (by simp [hx]))
      have := sumTrueWeights_nonneg t (fun x hx => h x (by simp [hx]))
      linarith
    simp only [sumWeights, List.map_cons, List.sum_cons]
    have : sumWeights t = (t.map (fun r => r.entry.weight)).sum := rfl
    linarith

theorem sumTrueWeights_eq_sumWeights_iff (c : List ChecklistResult)
    (h : ∀ r ∈ c, 0 < r.entry.weight) :
    sumTrueWeights c = sumWeights c ↔ ∀ r ∈ c, r.value = some true := by
  induction c with
  | nil => simp [sumTrueWeights, sumWeights]
  | cons r t ih =>
    have hr := h r (by simp)
    have hle := sumTrueWeights_le_sumWeights t (fun x hx => h x (by simp [hx]))
    have hiff := ih (fun x hx => h x (by simp [hx]))
    simp only [sumTrueWeights, sumWeights, List.map_cons, List.sum_cons] at *
    constructor
    · intro heq
      by_cases hv : r.value = some true
      · rw [if_pos hv] at heq
        have : sumTrueWeights t = sumWeights t := by
          simp only [sumTrueWeights, sumWeights]; linarith
        intro x hx
        rcases List.mem_cons.mp hx with hx | hx
        · subst hx; exact hv
        · exact (hiff.mp (by simp only [sumTrueWeights, sumWeights] at this; linarith)) x hx
      · rw [if_neg hv] at heq
        exfalso
        have h1 : sumTrueWeights t = (t.map (fun r => if r.value = some true then r.entry.weight else 0)).sum := rfl
        have h2 : sumWeights t = (t.map (fun r => r.entry.weight)).sum := rfl
        linarith [hle]
    · intro hall
      rw [if_pos (hall r (by simp))]
      have : sumTrueWeights t = sumWeights t := hiff.mpr (fun x hx => hall x (by simp [hx]))
      simp only [sumTrueWeights, sumWeights] at this
      linarith

theorem sumTrueWeights_eq_zero_iff (c : List ChecklistResult)
    (h : ∀ r ∈ c, 0 < r.entry.weight) :
    sumTrueWeights c = 0 ↔ ∀ r ∈ c, r.value ≠ some true := by
  induction c with
  | nil => simp [sumTrueWeights]
  | cons r t ih =>
    have hr := h r (by simp)
    have hnn := sumTrueWeights_nonneg t (fun x hx => h x (by simp [hx]))
    have hiff := ih (fun x hx => h x (by simp [hx]))
    simp only [sumTrueWeights, List.map_cons, List.sum_cons] at *
    constructor
    · intro heq
      by_cases hv : r.value = some true
      · rw [if_pos hv] at heq; exfalso; linarith
      · rw [if_neg hv] at heq
        intro x hx
        rcases List.mem_cons.mp hx with hx | hx
        · subst hx; exact hv
        · exact (hiff.mp (by linarith)) x hx
    · intro hall
      rw [if_neg (hall r (by simp))]
      have := hiff.mpr (fun x hx => hall x (by simp [hx]))
      linarith

/-- C4.  For a checklist with all-positive weights (hence positive total
weight, the configuration being non-empty) and boolean values for every
entry, the score is the quotient of the true-entry weight sum by the total
weight sum, lies in `[0, 1]`, is `1` iff every entry is `true`, and is `0`
iff every entry is `false`. -/
theorem score_bounds :
    ∀ c : List ChecklistResult, c ≠ [] →
      (∀ r ∈ c, 0 < r.entry.weight) →
      (∀ r ∈ c, r.value.isSome) →
      calculateScore c = sumTrueWeights c / sumWeights c ∧
      0 ≤ calculateScore c ∧ calculateScore c ≤ 1 ∧
      (calculateScore c = 1 ↔ ∀ r ∈ c, r.value = some true) ∧
      (calculateScore c = 0 ↔ ∀ r ∈ c, r.value = some false) := by
  intro c hne hw hb
  have hpos := sumWeights_pos c hne hw
  have hnn := sumTrueWeights_nonneg c hw
  have hle := sumTrueWeights_le_sumWeights c hw
  have heq := calculateScore_eq c
  refine ⟨heq, ?_, ?_, ?_, ?_⟩
  · rw [heq]; exact div_nonneg hnn (le_of_lt hpos)
  · rw [heq]; exact (div_le_one hpos).mpr hle
  · rw [heq, div_eq_one_iff_eq (ne_of_gt hpos)]
    exact sumTrueWeights_eq_sumWeights_iff c hw
  · rw [heq, div_eq_zero_iff]
    constructor
    · intro hz
      rcases hz with hz | hz
      · intro r hr
        have hnt := (sumTrueWeights_eq_zero_iff c hw).mp hz r hr
        have hs := hb r hr
        cases hv : r.value with
        | none => rw [hv] at hs; simp at hs
        | some b => cases b with
          | true => exact absurd hv hnt
          | false => rfl
      · exact absurd hz (ne_of_gt hpos)
    · intro hall
      left
      refine (sumTrueWeights_eq_zero_iff c hw).mpr (fun r hr => ?_)
      rw [hall r hr]; simp

/-- Witness for C4 at the scenario checklist `[{a, w=1, true}, {b, w=3,
false}]`. -/
theorem score_bounds_witness :
    calculateScore [⟨entryA, some true⟩, ⟨entryB, some false⟩] =
      sumTrueWeights [⟨entryA, some true⟩, ⟨entryB, some false⟩] /
        sumWeights [⟨entryA, some true⟩, ⟨entryB, some false⟩] ∧
    0 ≤ calculateScore [⟨entryA, some true⟩, ⟨entryB, some false⟩] ∧
    calculateScore [⟨entryA, some true⟩, ⟨entryB, some false⟩] ≤ 1 ∧
    (calculateScore [⟨entryA, some true⟩, ⟨entryB, some false⟩] = 1 ↔
      ∀ r ∈ [(⟨entryA, some true⟩ : ChecklistResult), ⟨entryB, some false⟩],
        r.value = some true) ∧
    (calculateScore [⟨entryA, some true⟩, ⟨entryB, some false⟩] = 0 ↔
      ∀ r ∈ [(⟨entryA, some true⟩ : ChecklistResult), ⟨entryB, some false⟩],
        r.value = some false) :=
  score_bounds [⟨entryA, some true⟩, ⟨entryB, some false⟩] (by simp)
    (by intro r hr; rcases List.mem_cons.mp hr with h | h
        · subst h; norm_num [entryA]
        · simp at h; subst h; norm_num [entryB])
    (by intro r hr; rcases List.mem_cons.mp hr with h | h
        · subst h; rfl
        · simp at h; subst h; rfl)

/-! ## Claim C5 — estimate normalization -/

/-- `r` occurs in `l`, attains the minimum distance to `v` over `l`, and
every element after its occurrence is strictly farther from `v`: `r` is the
last minimizer in declared order. -/
def IsLastMin (v : ℚ) (l : List ℚ) (r : ℚ) : Prop :=
  ∃ pre post, l = pre ++ r :: post ∧
    (∀ x ∈ l, |r - v| ≤ |x - v|) ∧
    (∀ y ∈ post, |r - v| < |y - v|)

/-- Characterization of the `roundScale` fold: the result is either the
seed, with everything folded strictly farther from `v`, or an element of
the list that is at least as close as the seed, at least as close as every
element before it, and strictly closer than every element after it (ties
move the accumulator to the later element). -/
theorem foldl_min_charac (v : ℚ) :
    ∀ (l : List ℚ) (a : ℚ),
      (l.foldl (fun a b => if |a - v| < |b - v| then a else b) a = a ∧
        ∀ y ∈ l, |a - v| < |y - v|) ∨
      (∃ pre y post, l = pre ++ y :: post ∧
        l.foldl (fun a b => if |a - v| < |b - v| then a else b) a = y ∧
        |y - v| ≤ |a - v| ∧ (∀ z ∈ pre, |y - v| ≤ |z - v|) ∧
        ∀ z ∈ post, |y - v| < |z - v|) := by
  intro l
  induction l with
  | nil =>
    intro a
    left
    exact ⟨rfl, by simp⟩
  | cons b t ih =>
    intro a
    by_cases hab : |a - v| < |b - v|
    · rcases ih a with ⟨h1, h2⟩ | ⟨pre, y, post, ht, hres, hya, hpre, hpost⟩
      · left
        refine ⟨by simp [List.foldl_cons, hab, h1], ?_⟩
        intro y hy
        rcases List.mem_cons.mp hy with rfl | hy
        · exact hab
        · exact h2 y hy
      · right
        refine ⟨b :: pre, y, post, by rw [ht, List.cons_append],
          by simp [List.foldl_cons, hab, hres], hya, ?_, hpost⟩
        intro z hz
        rcases List.mem_cons.mp hz with rfl | hz
        · exact le_of_lt (lt_of_le_of_lt hya hab)
        · exact hpre z hz
    · rcases ih b with ⟨h1, h2⟩ | ⟨pre, y, post, ht, hres, hyb, hpre, hpost⟩
      · right
        exact ⟨[], b, t, rfl, by simp [List.foldl_cons, hab, h1], not_lt.mp hab, by simp, h2⟩
      · right
        refine ⟨b :: pre, y, post, by rw [ht, List.cons_append],
          by simp [List.foldl_cons, hab, hres], le_trans hyb (not_lt.mp hab), ?_, hpost⟩
        intro z hz
        rcases List.mem_cons.mp hz with rfl | hz
        · exact hyb
        · exact hpre z hz

/-- On a non-empty scale, `roundScale` returns the minimum-distance scale
value, breaking distance ties toward the last occurrence. -/
theorem roundScale_isLastMin (v : ℚ) (scale : List ℚ) (h : scale ≠ []) :
    IsLastMin v scale (roundScale v scale) := by
  obtain ⟨c, t, rfl⟩ := List.exists_cons_of_ne_nil h
  have hseed : roundScale v (c :: t) =
      t.foldl (fun a b => if |a - v| < |b - v| then a else b) c := by
    simp [roundScale, List.foldl_cons]
  rcases foldl_min_charac v t c with ⟨h1, h2⟩ | ⟨pre, y, post, ht, hres, hyc, hpre, hpost⟩
  · rw [hseed, h1]
    refine ⟨[], t, rfl, ?_, h2⟩
    intro x hx
    rcases List.mem_cons.mp hx with rfl | hx
    · exact le_refl _
    · exact le_of_lt (h2 x hx)
  · rw [hseed, hres]
    refine ⟨c :: pre, post, by rw [ht, List.cons_append], ?_, hpost⟩
    intro x hx
    rcases List.mem_cons.mp hx with rfl | hx
    · exact hyc
    · rw [ht] at hx
      rcases List.mem_append.mp hx with hx | hx
      · exact hpre x hx
      · rcases List.mem_cons.mp hx with rfl | hx
        · exact le_refl _
        · exact le_of_lt (hpost x hx)

/-- C5 counterexample.  At the tie `averageStoryPoints = 5/2` over the
scale `[1, 2, 3, 5, 8]`, the values `2` and `3` are equidistant and the
code returns `3` — the last minimizer — while the claimed
first-occurrence tie-break demands `2`; the tie arises in the pipeline at
score `1/4` with raw story points `4`. -/
theorem round_scale_tie_breaks_last_not_first :
    roundScale (5/2) [1, 2, 3, 5, 8] = 3 ∧
    roundScaleFirstTie (5/2) [1, 2, 3, 5, 8] = 2 ∧
    |(2:ℚ) - 5/2| = |(3:ℚ) - 5/2| ∧
    (normalizeEstimate (1/4) ⟨80, 4⟩ sampleSettings).storyPoints = 3 := by
  refine ⟨?_, ?_, ?_, ?_⟩ <;>
    norm_num [roundScale, roundScaleFirstTie, normalizeEstimate, jsRound, sampleSettings,
      sampleScale, List.foldl, abs_of_nonneg, abs_of_nonpos]

/-- C5 amended.  The normalized estimate has
`confidence = round((confidence × score + confidence) / 2)` and
`storyPoints = roundScale((storyPoints × score + storyPoints) / 2, scale)`,
where `roundScale` picks the scale value of minimum absolute distance with
ties broken by the last (not first) occurrence in declared scale order; in
particular, with score `1/4`, raw estimate `{confidence: 80, storyPoints:
5}` and scale `[1, 2, 3, 5, 8]`, the result is `{confidence: 50,
storyPoints: 3}` (and the scenario checklist indeed scores `1/4`). -/
theorem normalize_estimate_characterization :
    (∀ (score : ℚ) (estimate : Estimate) (settings : SettingsV1),
      (normalizeEstimate score estimate settings).confidence =
        (jsRound ((estimate.confidence * score + estimate.confidence) / 2) : ℤ) ∧
      (normalizeEstimate score estimate settings).storyPoints =
        roundScale ((estimate.storyPoints * score + estimate.storyPoints) / 2)
          (settings.assistant.estimate.storyPoints.scale.map (fun s => s.points))) ∧
    (∀ (v : ℚ) (scale : List ℚ), scale ≠ [] → IsLastMin v scale (roundScale v scale)) ∧
    calculateScore [⟨entryA, some true⟩, ⟨entryB, some false⟩] = 1/4 ∧
    normalizeEstimate (1/4) ⟨80, 5⟩ sampleSettings = ⟨50, 3⟩ := by
  refine ⟨fun score estimate settings => ⟨rfl, rfl⟩, roundScale_isLastMin, ?_, ?_⟩
  · simp [calculateScore, entryA, entryB]
    norm_num
  · norm_num [normalizeEstimate, jsRound, roundScale, sampleSettings, sampleScale,
      List.foldl, abs_of_nonneg, abs_of_nonpos]

/-- Witness for C5 amended: the last-minimizer property at the scenario
average `25/8` over the sample scale, and the scenario result itself. -/
theorem normalize_estimate_characterization_witness :
    IsLastMin (25/8) [1, 2, 3, 5, 8] (roundScale (25/8) [1, 2, 3, 5, 8]) ∧
    normalizeEstimate (1/4) ⟨80, 5⟩ sampleSettings = ⟨50, 3⟩ :=
  ⟨normalize_estimate_characterization.2.1 (25/8) [1, 2, 3, 5, 8] (by simp),
   normalize_estimate_characterization.2.2.2⟩

/-! ## Claim C6 — serialization round trip

Facts about the splitters, then the header-parse lemma and the round-trip
theorem.  String concatenation is unfolded to character lists throughout. -/

theorem str_data_append (a b : String) : (a ++ b).data = a.data ++ b.data := rfl

theorem mk_data (l : List Char) : (String.mk l).data = l := rfl

theorem consHead_ne_nil (c : Char) (ls : List (List Char)) : consHead c ls ≠ [] := by
  cases ls <;> simp [consHead]

theorem splitNl_ne_nil (l : List Char) : splitNl l ≠ [] := by
  induction l with
  | nil => simp [splitNl]
  | cons c cs ih =>
    simp only [splitNl]
    split
    · simp
    · cases h : splitNl cs with
      | nil => exact absurd h ih
      | cons a b => simp [consHead]

/-- Splitting on newlines peels off a newline-free first line. -/
theorem splitNl_append (x r : List Char) (h : nlFree x = true) :
    splitNl (x ++ '\n' :: r) = x :: splitNl r := by
  induction x with
  | nil => simp [splitNl]
  | cons c x' ih =>
    simp only [nlFree, List.all_cons, Bool.and_eq_true, decide_eq_true_eq] at h
    simp only [List.cons_append, splitNl, if_neg h.1, List.append_eq]
    rw [ih h.2]
    rfl

/-- Splitting at the first `": "` recovers a colon-free key and its value. -/
theorem splitColon_keyval (k v : List Char)
    (hcol : k.all (fun c => decide (c ≠ ':')) = true) :
    splitColon (k ++ ':' :: ' ' :: v) = some (k, v) := by
  induction k with
  | nil => simp [splitColon]
  | cons c k' ih =>
    have h1 : c ≠ ':' := by
      simp only [List.all_cons, Bool.and_eq_true, decide_eq_true_eq] at hcol
      exact hcol.1
    have h2 : k'.all (fun c => decide (c ≠ ':')) = true := by
      simp only [List.all_cons, Bool.and_eq_true] at hcol
      exact hcol.2
    cases k' with
    | nil =>
      simp only [List.nil_append, List.cons_append, splitColon]
      rw [if_neg (by simp [h1])]
      simp [splitColon]
    | cons x k'' =>
      simp only [List.cons_append] at ih
      simp only [List.cons_append, splitColon, List.append_eq]
      rw [if_neg (by simp [h1])]
      rw [ih h2]
      rfl

theorem splitDashes_ne_nil (l : List Char) : splitDashes l ≠ [] := by
  cases l with
  | nil => simp [splitDashes]
  | cons c l1 =>
    cases l1 with
    | nil => simp [splitDashes]
    | cons d l2 =>
      cases l2 with
      | nil => simp [splitDashes]
      | cons e rest =>
        simp only [splitDashes]
        split
        · simp
        · exact consHead_ne_nil _ _

theorem splitDashes_sep (r : List Char) :
    splitDashes ('-' :: '-' :: '-' :: r) = [] :: splitDashes r := by
  simp [splitDashes]

/-- Splitting on `"---"` peels off a first fragment that neither contains a
triple dash nor forms one across its boundary with the separator. -/
theorem splitDashes_append (a r : List Char)
    (h : hasTriple (a ++ ['-', '-']) = false) :
    splitDashes (a ++ '-' :: '-' :: '-' :: r) = a :: splitDashes r := by
  induction a with
  | nil => simpa using splitDashes_sep r
  | cons c a' ih =>
    cases a' with
    | nil =>
      simp only [List.cons_append, List.nil_append, hasTriple, Bool.or_eq_false_iff,
        decide_eq_false_iff_not] at h
      have hcne : ¬c = '-' := by simpa using h.1
      simp [splitDashes, hcne, consHead]
    | cons x a'' =>
      cases a'' with
      | nil =>
        simp only [List.cons_append, List.nil_append, hasTriple, Bool.or_eq_false_iff,
          decide_eq_false_iff_not] at h
        have hx : ¬x = '-' := by simpa using h.2.1
        have hcx : ¬(c = '-' ∧ x = '-') := by simpa using h.1
        simp [splitDashes, hcx, hx, consHead]
      | cons y a''' =>
        have hc : ¬(c = '-' ∧ x = '-' ∧ y = '-') := by
          simp only [List.cons_append, hasTriple, Bool.or_eq_false_iff,
            decide_eq_false_iff_not] at h
          exact h.1
        have h2 : hasTriple ((x :: y :: a''') ++ ['-', '-']) = false := by
          simp only [List.cons_append, hasTriple, Bool.or_eq_false_iff] at h ⊢
          exact h.2
        have hrec := ih h2
        simp only [List.cons_append] at hrec
        simp only [List.cons_append, splitDashes, List.append_eq]
        rw [if_neg hc, hrec]
        rfl

theorem mk_of_data (s : String) : String.mk s.data = s := rfl

theorem parseLine_indent (l : List Char) : parseLine (String.mk (' ' :: l)) = none := by
  simp [parseLine]

/-- A top-level line `k: v` parses back to its binding when the key is
colon-free and does not start with a space. -/
theorem parseLine_keyval (k v : String) (c : Char) (rest : List Char)
    (hk : k.data = c :: rest) (hc : c ≠ ' ')
    (hcol : k.data.all (fun ch => decide (ch ≠ ':')) = true) :
    parseLine (String.mk (k.data ++ ':' :: ' ' :: v.data)) = some (k, v) := by
  have hsp := splitColon_keyval k.data v.data hcol
  simp only [parseLine, mk_data, hk, List.cons_append]
  rw [if_neg hc]
  rw [hk] at hsp
  simp only [List.cons_append] at hsp
  rw [hsp]
  simp [← hk, mk_of_data]

/-- The tail of the YAML header after the three leading meta lines. -/
def yamlHeaderRest (m : IssueMeta) : String :=
  yamlLine "self" m.self ++ yamlLine "created" m.created ++
  yamlLine "updated" m.updated ++ "creator:\n" ++ authorBlock m.creator

/-- Parsing the serialized YAML header recovers `id`, `key` and `summary`
whenever those three values are newline-free; later fields cannot shadow
them because lookup returns the first binding. -/
theorem parseHeaderMeta_yaml (m : IssueMeta)
    (h1 : nlFree m.id.data = true) (h2 : nlFree m.key.data = true)
    (h3 : nlFree m.summary.data = true) :
    parseHeaderMeta (String.mk ('\n' :: (yamlStringifyMeta m).data)) =
      some ⟨m.id, m.key, m.summary⟩ := by
  have hH : (yamlStringifyMeta m).data =
      ("id".data ++ ':' :: ' ' :: m.id.data) ++ '\n' ::
      (("key".data ++ ':' :: ' ' :: m.key.data) ++ '\n' ::
       (("summary".data ++ ':' :: ' ' :: m.summary.data) ++ '\n' ::
        (yamlHeaderRest m).data)) := by
    simp [yamlStringifyMeta, yamlHeaderRest, yamlLine, str_data_append, List.append_assoc]
  have h1' : ∀ x ∈ m.id.data, ¬x = '\n' := by simpa [nlFree] using h1
  have h2' : ∀ x ∈ m.key.data, ¬x = '\n' := by simpa [nlFree] using h2
  have h3' : ∀ x ∈ m.summary.data, ¬x = '\n' := by simpa [nlFree] using h3
  have hid : nlFree ("id".data ++ ':' :: ' ' :: m.id.data) = true := by
    simp [nlFree, List.all_append]
    exact h1'
  have hkey : nlFree ("key".data ++ ':' :: ' ' :: m.key.data) = true := by
    simp [nlFree, List.all_append]
    exact h2'
  have hsum : nlFree ("summary".data ++ ':' :: ' ' :: m.summary.data) = true := by
    simp [nlFree, List.all_append]
    exact h3'
  have hsplit : splitNl ('\n' :: (yamlStringifyMeta m).data) =
      [] :: ("id".data ++ ':' :: ' ' :: m.id.data) ::
      ("key".data ++ ':' :: ' ' :: m.key.data) ::
      ("summary".data ++ ':' :: ' ' :: m.summary.data) ::
      splitNl (yamlHeaderRest m).data := by
    have hstep : splitNl ('\n' :: (yamlStringifyMeta m).data) =
        [] :: splitNl (yamlStringifyMeta m).data := by
      simp [splitNl]
    rw [hstep, hH, splitNl_append _ _ hid, splitNl_append _ _ hkey, splitNl_append _ _ hsum]
  have pid := parseLine_keyval "id" m.id 'i' ['d'] rfl (by decide) (by decide)
  have pkey := parseLine_keyval "key" m.key 'k' ['e', 'y'] rfl (by decide) (by decide)
  have psum := parseLine_keyval "summary" m.summary 's' "ummary".data rfl (by decide)
    (by decide)
  simp only [parseHeaderMeta, parseTopLines, mk_data, hsplit, List.map_cons,
    List.filterMap_cons, pid, pkey, psum]
  simp [parseLine, List.lookup]

/-- C6 amended.  `deserializeEdit ∘ serializeIssue` recovers the issue's
`key` and `summary` (and `id`) in the returned meta, provided the `id`,
`key` and `summary` values are newline-free and the serialized YAML header
contains no `"---"` occurrence (including across its boundary with the
closing delimiter); without that proviso the split on `"---"` truncates the
header, as the counterexample shows. -/
theorem serialize_roundtrip_meta :
    ∀ (toMd toJira : String → String) (i : Issue),
      nlFree i.id.data = true → nlFree i.key.data = true →
      nlFree i.fields.summary.data = true →
      hasTriple (('\n' :: (yamlStringifyMeta (metaOf i)).data) ++ ['-', '-']) = false →
      ∃ d, deserializeEdit toJira (serializeIssue toMd i) =
        .ok ⟨⟨i.id, i.key, i.fields.summary⟩, d⟩ := by
  intro toMd toJira i h1 h2 h3 hdash
  have htext : (serializeIssue toMd i).data =
      '-' :: '-' :: '-' ::
      (('\n' :: (yamlStringifyMeta (metaOf i)).data) ++
        '-' :: '-' :: '-' ::
          ('\n' :: '\n' :: (toMd (i.fields.description.getD "")).data)) := by
    simp [serializeIssue, str_data_append]
  have hsplit : splitDashes (serializeIssue toMd i).data =
      [] :: ('\n' :: (yamlStringifyMeta (metaOf i)).data) ::
      splitDashes ('\n' :: '\n' :: (toMd (i.fields.description.getD "")).data) := by
    rw [htext, splitDashes_sep, splitDashes_append _ _ hdash]
  obtain ⟨hd, tl, hread⟩ := List.exists_cons_of_ne_nil
    (splitDashes_ne_nil ('\n' :: '\n' :: (toMd (i.fields.description.getD "")).data))
  refine ⟨toJira (String.mk hd), ?_⟩
  simp only [deserializeEdit, hsplit, hread, List.map_cons]
  rw [show (("" :: String.mk ('\n' :: (yamlStringifyMeta (metaOf i)).data) ::
      String.mk hd :: tl.map String.mk).get? 1) =
      some (String.mk ('\n' :: (yamlStringifyMeta (metaOf i)).data)) from rfl]
  rw [show (("" :: String.mk ('\n' :: (yamlStringifyMeta (metaOf i)).data) ::
      String.mk hd :: tl.map String.mk).get? 2) = some (String.mk hd) from rfl]
  simp [parseHeaderMeta_yaml (metaOf i) h1 h2 h3]
  exact ⟨rfl, rfl, rfl⟩

set_option maxRecDepth 20000 in
/-- Witness for C6 amended at the sample issue. -/
theorem serialize_roundtrip_meta_witness :
    nlFree sampleIssue.id.data = true ∧
    nlFree sampleIssue.key.data = true ∧
    nlFree sampleIssue.fields.summary.data = true ∧
    hasTriple (('\n' :: (yamlStringifyMeta (metaOf sampleIssue)).data) ++ ['-', '-'])
      = false ∧
    ∃ d, deserializeEdit id (serializeIssue id sampleIssue) =
      .ok ⟨⟨sampleIssue.id, sampleIssue.key, sampleIssue.fields.summary⟩, d⟩ :=
  ⟨by decide, by decide, by decide, by decide,
   serialize_roundtrip_meta id id sampleIssue (by decide) (by decide) (by decide) (by decide)⟩

/-- The sample issue with `"---"` inside its summary. -/
def dashIssue : Issue :=
  { sampleIssue with fields := { sampleIssue.fields with summary := "a---b" } }

set_option maxRecDepth 20000 in
/-- C6 counterexample.  For a summary containing `"---"`,
`deserializeEdit(serializeIssue(issue))` still succeeds but returns
`summary = "a"` instead of `"a---b"`: the document split on `"---"` cuts
the YAML header at the occurrence inside the summary value, so the claimed
round-trip recovery of the summary fails. -/
theorem roundtrip_summary_triple_dash_lost :
    dashIssue.fields.summary = "a---b" ∧
    (deserializeEdit id (serializeIssue id dashIssue)).toOption.map
      (fun e => e.meta.summary) = some "a" ∧
    ("a" : String) ≠ "a---b" := by
  refine ⟨rfl, by decide, by decide⟩

end Karen
